import Mathlib

/-!
Verification development for the AgriSmart DSS (src/AgriSmart-DSS.py).

The program is a Streamlit application over one pandas table read from
`TEAM_DSS_Dataset.csv`.  We shallowly embed the parts of the program the
claims are about:

* `validate_data` / the startup flow (lines 21–43): required-column check,
  `st.stop()` when columns are missing;
* the cleaning step (lines 46–51): `dropna` on `Crop` / `Farm Location`,
  strip + title-case normalisation;
* `get_recommendations` (lines 58–91): exact case-insensitive match, substring
  fallback, `sort_values('farm to cold storage(km)').iloc[0]` selection,
  derived cost strings, catch-all exception handler returning `None`;
* the crop-guidelines block (lines 200–234) and the spoilage pivot
  (lines 184–189).

Numbers are embedded as exact rationals.  A numeric CSV cell is a `PyVal`:
either a float or a (malformed) string, so that the Python `TypeError` raised
by comparing or multiplying mixed types — the failure mode the spec's
`EngineFailure` taxonomy talks about — is representable.  Fallible Python
expressions are embedded in `Except String`.
-/

namespace AgriSmart

/- Batteries seals the rational-number field operations; re-open them for
kernel evaluation of concrete witness data. -/
attribute [local semireducible] Rat.mul Rat.inv Rat.add Rat.sub

/-- A value sitting in a numeric column of the pandas frame: either a float
(embedded as an exact rational) or a stray string (a malformed cell).  -/
inductive PyVal where
  | float (q : ℚ)
  | str (s : String)
deriving DecidableEq, Repr

def PyVal.isFloat : PyVal → Bool
  | .float _ => true
  | .str _ => false

/-- The rational carried by a float cell (junk value `0` on a string cell;
only used under a well-formedness hypothesis that rules the latter out). -/
def PyVal.toQ : PyVal → ℚ
  | .float q => q
  | .str _ => 0

/-- The whitespace characters Python `str.strip()` removes by default. -/
def pyIsSpace (c : Char) : Bool :=
  c == ' ' || c == '\t' || c == '\n' || c == '\r' || c == '\x0b' || c == '\x0c'

def dropLeadingWs : List Char → List Char
  | [] => []
  | c :: t => if pyIsSpace c then dropLeadingWs t else c :: t

/-- Python `str.strip()` / pandas `Series.str.strip()`: remove leading and
trailing whitespace. -/
def pyStrip (s : String) : String :=
  String.mk (dropLeadingWs (dropLeadingWs s.data).reverse).reverse

/-- Python `str.lower()` / pandas `Series.str.lower()` on the ASCII data of
this dataset. -/
def pyLower (s : String) : String := String.mk (s.data.map Char.toLower)

/-- Python `a * b` on cell values: float·float multiplies, any operand that is
a string raises `TypeError` (the operands here are floats, never ints, so the
string-repetition special case of `*` does not apply). -/
def pyMul : PyVal → PyVal → Except String PyVal
  | .float a, .float b => .ok (.float (a * b))
  | _, _ => .error "TypeError: unsupported operand type(s) for *"

/-- Python `a < b` on cell values, as used by the sort comparator:
float/float and str/str compare, mixed types raise `TypeError`. -/
def pyLt : PyVal → PyVal → Except String Bool
  | .float a, .float b => .ok (decide (a < b))
  | .str a, .str b => .ok (decide (a < b))
  | _, _ => .error "TypeError: '<' not supported between mixed instances"

/-- Truncation toward zero of a rational: the value of Python `int(x)` on a
float `x`.  `Int.div` is T-division, so this truncates for either sign. -/
def ratTrunc (q : ℚ) : ℤ := Int.tdiv q.num (q.den : ℤ)

/-- Python `int(x)` on a cell value: floats truncate toward zero; strings are
parsed as integer literals and raise `ValueError` otherwise. -/
def pyInt : PyVal → Except String ℤ
  | .float q => .ok (ratTrunc q)
  | .str s =>
    match (pyStrip s).toInt? with
    | some n => .ok n
    | none => .error "ValueError: invalid literal for int() with base 10"

/-- Floor of a rational (via floor division of numerator by denominator). -/
def ratFloor (q : ℚ) : ℤ := Int.fdiv q.num (q.den : ℤ)

/-- Python 3 `round(x)` on a float: round half to even (banker's rounding).
Used only to state what the spec asserts about the transport-cost total. -/
def pythonRound (q : ℚ) : ℤ :=
  let f := ratFloor q
  let frac := q - (f : ℚ)
  if frac < 1 / 2 then f
  else if 1 / 2 < frac then f + 1
  else if Int.emod f 2 = 0 then f else f + 1

/-- Insert a comma after every run of three characters, working over the
reversed digit list (helper for the Python `{:,}` format specifier). -/
def groupRev : List Char → List Char
  | a :: b :: c :: d :: rest => a :: b :: c :: ',' :: groupRev (d :: rest)
  | l => l

/-- The Python format `f"{n:,}"` on an integer: decimal digits grouped in
threes by commas, with a leading minus sign for negatives. -/
def commaFmt (n : ℤ) : String :=
  (if n < 0 then "-" else "") ++
    String.mk (groupRev (toString n.natAbs).data.reverse).reverse

/-- Decimal digits of the fractional part `rem / den`, fuel-bounded. -/
def fracDigits : Nat → Nat → Nat → String
  | 0, _, _ => ""
  | _ + 1, 0, _ => ""
  | fuel + 1, rem, den =>
    (Nat.digitChar (rem * 10 / den)).toString ++ fracDigits fuel (rem * 10 % den) den

/-- Python `str(x)` on a float: decimal rendering, always with a fractional
part (`350.0`, `12.5`).  The CSV cells of this dataset are short terminating
decimals, which the fuel covers exactly. -/
def pyFloatRepr (q : ℚ) : String :=
  (if q < 0 then "-" else "") ++ toString (q.num.natAbs / q.den) ++ "." ++
    (if q.num.natAbs % q.den = 0 then "0"
     else fracDigits 32 (q.num.natAbs % q.den) q.den)

/-- Python `str` applied to a cell value (what an f-string interpolates). -/
def pyValStr : PyVal → String
  | .float q => pyFloatRepr q
  | .str s => s

/-- `startsB pat l`: does `l` start with `pat`?  (Char-list prefix test.) -/
def startsB : List Char → List Char → Bool
  | [], _ => true
  | _ :: _, [] => false
  | a :: as, b :: bs => a == b && startsB as bs

/-- Substring search over char lists: does `hay` contain `pat`? -/
def containsAux (pat : List Char) : List Char → Bool
  | [] => startsB pat []
  | c :: rest => startsB pat (c :: rest) || containsAux pat rest

/-- `containsB s pat`: pandas `Series.str.contains(pat)` on entry `s`, for a
pattern without regular-expression metacharacters — plain substring
containment, the reading the spec documents for the fuzzy fallback. -/
def containsB (s pat : String) : Bool := containsAux pat.data s.data

/-- One row of the cleaned dataframe.  Field ↔ column correspondence:
`farm_location` ↔ `Farm Location`, `crop` ↔ `Crop`,
`cold_storage_location` ↔ `cold storage location`,
`farm_to_storage_km` ↔ `farm to cold storage(km)`,
`farm_to_storage_hrs` ↔ `farm to cold storage(hrs)`,
`market_location` ↔ `market location`,
`storage_to_market_km` ↔ `cold storage to market(km)`,
`storage_to_market_hrs` ↔ `cold storage to market(hrs)`,
`optimal_temp` ↔ `optimal storage temp(degree c)` (`none` = NaN),
`spoilage_rate` ↔ `spoilage rate at optimal temp(%)per week` (`none` = NaN),
`storage_cost` ↔ `storage cost(#/crate/day)`,
`transport_cost` ↔ `transport cost for 20 ton load(#/km)`. -/
structure FarmRecord where
  farm_location : String
  crop : String
  cold_storage_location : String
  farm_to_storage_km : PyVal
  farm_to_storage_hrs : PyVal
  market_location : String
  storage_to_market_km : PyVal
  storage_to_market_hrs : PyVal
  optimal_temp : Option ℚ
  spoilage_rate : Option ℚ
  storage_cost : PyVal
  transport_cost : PyVal
deriving DecidableEq, Repr

/-- The dictionary `get_recommendations` returns on success (lines 76–87). -/
structure RecOut where
  storage_name : String
  storage_km : PyVal
  storage_hrs : PyVal
  market_name : String
  market_km : PyVal
  market_hrs : PyVal
  optimal_temp : Option ℚ
  spoilage_rate : Option ℚ
  storage_cost : String
  transport_cost : String
deriving DecidableEq, Repr

/-- The km cell of a record as a rational (under well-formedness). -/
def kmQ (r : FarmRecord) : ℚ := r.farm_to_storage_km.toQ

/-- The transport-cost-per-km cell of a record as a rational. -/
def tcQ (r : FarmRecord) : ℚ := r.transport_cost.toQ

/-- A record is well formed when the two numeric cells `get_recommendations`
computes with — the sort key and the per-km transport cost — hold floats,
as the spec's data model (§3) requires. -/
def wfRec (r : FarmRecord) : Bool :=
  r.farm_to_storage_km.isFloat && r.transport_cost.isFloat

/-- Well-formedness of a whole dataset. -/
def wfDb (db : List FarmRecord) : Bool := db.all wfRec

/-- Exact phase (lines 62–65): rows whose stripped, lower-cased
`Farm Location` and `Crop` equal the stripped, lower-cased query strings. -/
def exactMatches (db : List FarmRecord) (farm_loc crop_type : String) :
    List FarmRecord :=
  db.filter fun r =>
    (pyLower (pyStrip r.farm_location) == pyLower (pyStrip farm_loc)) &&
    (pyLower (pyStrip r.crop) == pyLower (pyStrip crop_type))

/-- Fallback phase (lines 69–72): rows whose stripped, lower-cased
`Farm Location` and `Crop` contain the stripped, lower-cased query strings
as substrings. -/
def substrMatches (db : List FarmRecord) (farm_loc crop_type : String) :
    List FarmRecord :=
  db.filter fun r =>
    containsB (pyLower (pyStrip r.farm_location)) (pyLower (pyStrip farm_loc)) &&
    containsB (pyLower (pyStrip r.crop)) (pyLower (pyStrip crop_type))

/-- Candidate set of `get_recommendations` (lines 62–72): the exact matches,
or — only when those are empty — the substring matches. -/
def candidates (db : List FarmRecord) (farm_loc crop_type : String) :
    List FarmRecord :=
  let results := exactMatches db farm_loc crop_type
  if results.isEmpty then substrMatches db farm_loc crop_type else results

/-- Fold of `results.sort_values('farm to cold storage(km)')` followed by
`.iloc[0]`: a row attaining the minimal key.  pandas sorts with the default
`kind='quicksort'`, which is not stable, so *which* row among tied minimal
keys `iloc[0]` yields is implementation-defined; this fold determinizes that
choice to the first such row in table order.  Every theorem below depends on
the selected row only through properties invariant under the tie choice —
membership in the candidate list and minimality of its key — never through
the identity of the tied row chosen.  Each comparison follows Python
semantics and raises `TypeError` on mixed cell types, as the pandas sort
does on a mixed column. -/
def sortMinAux : FarmRecord → List FarmRecord → Except String FarmRecord
  | best, [] => .ok best
  | best, r :: t =>
    match pyLt r.farm_to_storage_km best.farm_to_storage_km with
    | .error e => .error e
    | .ok lt => sortMinAux (if lt then r else best) t

/-- `results.sort_values('farm to cold storage(km)').iloc[0]` (line 75);
`iloc[0]` on an empty frame raises `IndexError`. -/
def sortValuesHead : List FarmRecord → Except String FarmRecord
  | [] => .error "IndexError: single positional indexer is out-of-bounds"
  | b :: t => sortMinAux b t

/-- Pure companion of `sortMinAux` on well-formed rows: a row of `best :: l`
attaining the minimal km value (the same determinization of the
implementation-defined tie choice; see `sortMinAux`). -/
def firstMinAux : FarmRecord → List FarmRecord → FarmRecord
  | best, [] => best
  | best, r :: t => firstMinAux (if kmQ r < kmQ best then r else best) t

/-- The numeric transport-cost total of line 86:
`int(nearest['transport cost for 20 ton load(#/km)'] * nearest['farm to cold storage(km)'])`. -/
def transportTotal (r : FarmRecord) : Except String ℤ :=
  match pyMul r.transport_cost r.farm_to_storage_km with
  | .error e => .error e
  | .ok p => pyInt p

/-- The result dictionary built from the selected row (lines 76–87),
including the two formatted cost strings. -/
def buildResult (nearest : FarmRecord) : Except String RecOut :=
  match transportTotal nearest with
  | .error e => .error e
  | .ok t =>
    .ok {
      storage_name := nearest.cold_storage_location
      storage_km := nearest.farm_to_storage_km
      storage_hrs := nearest.farm_to_storage_hrs
      market_name := nearest.market_location
      market_km := nearest.storage_to_market_km
      market_hrs := nearest.storage_to_market_hrs
      optimal_temp := nearest.optimal_temp
      spoilage_rate := nearest.spoilage_rate
      storage_cost := "₦" ++ pyValStr nearest.storage_cost ++ "/crate/day"
      transport_cost := "₦" ++ commaFmt t
    }

/-- What `buildResult` produces on a well-formed row, as a total function. -/
def mkOutPure (r : FarmRecord) : RecOut :=
  { storage_name := r.cold_storage_location
    storage_km := r.farm_to_storage_km
    storage_hrs := r.farm_to_storage_hrs
    market_name := r.market_location
    market_km := r.storage_to_market_km
    market_hrs := r.storage_to_market_hrs
    optimal_temp := r.optimal_temp
    spoilage_rate := r.spoilage_rate
    storage_cost := "₦" ++ pyValStr r.storage_cost ++ "/crate/day"
    transport_cost := "₦" ++ commaFmt (ratTrunc (tcQ r * kmQ r)) }

/-- The `try` block of `get_recommendations` (lines 60–88): two-phase
filtering, nearest selection, result projection; `.ok none` is the
`return None` of line 88, `.error` an escaping Python exception. -/
def getRecommendationsBody (db : List FarmRecord) (farm_loc crop_type : String) :
    Except String (Option RecOut) :=
  match candidates db farm_loc crop_type with
  | [] => .ok none
  | b :: t =>
    match sortMinAux b t with
    | .error e => .error e
    | .ok nearest =>
      match buildResult nearest with
      | .error e => .error e
      | .ok out => .ok (some out)

/-- `get_recommendations` (lines 58–91).  First component: the value the
caller receives (`None` both on no match and on a caught exception).
Second component: whether the `except` handler ran, i.e. whether
`st.error("Error in recommendation: ...")` was displayed (line 90) — the
only trace of a failure, visible on the page but not in the return value. -/
def get_recommendations (db : List FarmRecord) (farm_loc crop_type : String) :
    Option RecOut × Bool :=
  match getRecommendationsBody db farm_loc crop_type with
  | .ok v => (v, false)
  | .error _ => (none, true)

/-! ### Loader / validator (lines 14–51) -/

/-- The `required_cols` list of `validate_data` (lines 23–27). -/
def required_cols : List String :=
  ["Farm Location", "Crop", "cold storage location",
   "optimal storage temp(degree c)",
   "spoilage rate at optimal temp(%)per week"]

/-- `[col for col in required_cols if col not in df.columns]` (line 29). -/
def missingCols (columns : List String) : List String :=
  required_cols.filter fun c => !(columns.contains c)

/-- `validate_data` (lines 21–40): `False` iff a required column is missing.
The null-value report of lines 34–38 is a non-fatal on-page warning that does
not affect the returned value, so it does not appear here. -/
def validate_data (columns : List String) : Bool :=
  (missingCols columns).isEmpty

/-- A raw row as read from the CSV: `Crop` / `Farm Location` may be null. -/
structure RawRecord where
  farm_location : Option String
  crop : Option String
  cold_storage_location : String
  farm_to_storage_km : PyVal
  farm_to_storage_hrs : PyVal
  market_location : String
  storage_to_market_km : PyVal
  storage_to_market_hrs : PyVal
  optimal_temp : Option ℚ
  spoilage_rate : Option ℚ
  storage_cost : PyVal
  transport_cost : PyVal
deriving DecidableEq, Repr

/-- The raw table `pd.read_csv` yields: header names plus rows. -/
structure RawTable where
  columns : List String
  rows : List RawRecord
deriving DecidableEq, Repr

/-- Python `str.title()`: each alphabetic run starts upper-cased, its
remaining letters lower-cased (used by `df['Crop'].str.title()`, line 47). -/
def pyTitle (s : String) : String :=
  let step := fun (acc : List Char × Bool) (c : Char) =>
    if c.isAlpha then
      (acc.1 ++ [if acc.2 then c.toLower else c.toUpper], true)
    else (acc.1 ++ [c], false)
  String.mk (s.data.foldl step ([], false)).1

/-- The cleaning step (lines 46–48): drop rows with null `Crop` or
`Farm Location`, strip + title-case `Crop`, strip `Farm Location`. -/
def cleanRows (rows : List RawRecord) : List FarmRecord :=
  rows.filterMap fun rr =>
    match rr.farm_location, rr.crop with
    | some l, some c =>
      some {
        farm_location := pyStrip l
        crop := pyTitle (pyStrip c)
        cold_storage_location := rr.cold_storage_location
        farm_to_storage_km := rr.farm_to_storage_km
        farm_to_storage_hrs := rr.farm_to_storage_hrs
        market_location := rr.market_location
        storage_to_market_km := rr.storage_to_market_km
        storage_to_market_hrs := rr.storage_to_market_hrs
        optimal_temp := rr.optimal_temp
        spoilage_rate := rr.spoilage_rate
        storage_cost := rr.storage_cost
        transport_cost := rr.transport_cost }
    | _, _ => none

/-- State of the script after the startup block (lines 18–51): either halted
by `st.stop()` with the missing-column report (no cleaned dataset is ever
built), or ready with the cleaned dataset. -/
inductive AppPhase where
  | stopped (missing : List String)
  | ready (db : List FarmRecord)
deriving DecidableEq, Repr

/-- Lines 42–51: `if not validate_data(df): st.stop()`, then cleaning. -/
def appInit (t : RawTable) : AppPhase :=
  if validate_data t.columns then .ready (cleanRows t.rows)
  else .stopped (missingCols t.columns)

/-- A query can only run in the ready phase; after `st.stop()` the rest of
the script — including every call to `get_recommendations` — never runs. -/
def serveQuery (phase : AppPhase) (farm_loc crop_type : String) :
    Option (Option RecOut × Bool) :=
  match phase with
  | .stopped _ => none
  | .ready db => some (get_recommendations db farm_loc crop_type)

/-! ### Aggregation / reporting (lines 184–234) -/

/-- Arithmetic mean of a list of rationals (guarded by non-emptiness at every
use site, matching `Series.mean` on a non-empty series). -/
def meanQ (l : List ℚ) : ℚ := l.sum / (l.length : ℚ)

/-- The filtered frame of the crop-guidelines block (lines 206–210): rows
whose stripped, lower-cased `Crop` equals the lower-cased, stripped crop
name, with rows lacking temperature or spoilage data dropped. -/
def cropFiltered (db : List FarmRecord) (crop_name : String) :
    List FarmRecord :=
  (db.filter fun r =>
    pyLower (pyStrip r.crop) == pyStrip (pyLower crop_name)).filter
    fun r => r.optimal_temp.isSome && r.spoilage_rate.isSome

/-- `value_counts()` in first-seen key order: each distinct value of the list
paired with its number of occurrences. -/
def valueCounts (l : List String) : List (String × Nat) :=
  (l.foldl (fun acc s => if acc.contains s then acc else acc ++ [s]) []).map
    fun k => (k, l.count k)

/-- Insert into a list sorted by descending count, after entries of equal
count (so earlier-seen keys stay first among ties). -/
def insertByCount (x : String × Nat) : List (String × Nat) → List (String × Nat)
  | [] => [x]
  | y :: t => if y.2 < x.2 then x :: y :: t else y :: insertByCount x t

/-- Descending stable sort by count. -/
def sortByCount : List (String × Nat) → List (String × Nat)
  | [] => []
  | x :: t => insertByCount x (sortByCount t)

/-- What one crop's guidelines expander shows (lines 212–232): either the
two means plus the top storage facilities, or the explicit
`"No data available for ..."` marker of line 232. -/
inductive CropGuide where
  | unavailable
  | metrics (avg_temp avg_spoilage : ℚ) (top_locs : List (String × Nat))
deriving DecidableEq, Repr

/-- The crop-guidelines computation for one crop name (lines 206–232). -/
def crop_summary (db : List FarmRecord) (crop_name : String) : CropGuide :=
  let crop_data := cropFiltered db crop_name
  if crop_data.isEmpty then .unavailable
  else
    .metrics
      (meanQ (crop_data.filterMap fun r => r.optimal_temp))
      (meanQ (crop_data.filterMap fun r => r.spoilage_rate))
      ((sortByCount (valueCounts
        (crop_data.map fun r => r.cold_storage_location))).take 3)

/-- One cell of `df.pivot_table(index='Farm Location', columns='Crop',
values='spoilage rate at optimal temp(%)per week', aggfunc='mean')`
(lines 184–189): the mean of the non-null spoilage rates of the rows with
this exact location and crop, and `none` — pandas NaN, an absent cell —
when there is nothing to aggregate.  No `fill_value` is passed, so absent
combinations are never zero-filled. -/
def pivotCell (db : List FarmRecord) (loc crop : String) : Option ℚ :=
  let vals :=
    (db.filter fun r => r.farm_location == loc && r.crop == crop).filterMap
      fun r => r.spoilage_rate
  if vals.isEmpty then none else some (meanQ vals)

/-! ### Helper lemmas -/

theorem wfRec_parts (r : FarmRecord) (h : wfRec r = true) :
    r.farm_to_storage_km = .float (kmQ r) ∧ r.transport_cost = .float (tcQ r) := by
  rw [wfRec, Bool.and_eq_true] at h
  constructor
  · cases hk : r.farm_to_storage_km with
    | float q => simp [kmQ, hk, PyVal.toQ]
    | str s => rw [hk] at h; exact absurd h.1 (by simp [PyVal.isFloat])
  · cases hk : r.transport_cost with
    | float q => simp [tcQ, hk, PyVal.toQ]
    | str s => rw [hk] at h; exact absurd h.2 (by simp [PyVal.isFloat])

theorem startsB_refl : ∀ l : List Char, startsB l l = true := by
  intro l
  induction l with
  | nil => rfl
  | cons c t ih => simp [startsB, ih]

/-- A string contains itself as a substring, so every exact match is also a
substring match. -/
theorem containsB_refl (s : String) : containsB s s = true := by
  rw [containsB]
  cases h : s.data with
  | nil => rfl
  | cons c t => simp [containsAux, startsB_refl]

theorem firstMinAux_mem (l : List FarmRecord) (best : FarmRecord) :
    firstMinAux best l ∈ best :: l := by
  induction l generalizing best with
  | nil => simp [firstMinAux]
  | cons r t ih =>
    simp only [firstMinAux]
    rcases List.mem_cons.mp (ih (if kmQ r < kmQ best then r else best)) with h1 | h1
    · rw [h1]
      by_cases hc : kmQ r < kmQ best
      · simp [hc]
      · simp [hc]
    · exact List.mem_cons.mpr (Or.inr (List.mem_cons.mpr (Or.inr h1)))

theorem firstMinAux_le (l : List FarmRecord) : ∀ best : FarmRecord,
    ∀ x ∈ best :: l, kmQ (firstMinAux best l) ≤ kmQ x := by
  induction l with
  | nil =>
    intro best x hx
    rw [List.mem_singleton] at hx
    subst hx
    simp [firstMinAux]
  | cons r t ih =>
    intro best x hx
    simp only [firstMinAux]
    have hhead : kmQ (firstMinAux (if kmQ r < kmQ best then r else best) t)
        ≤ kmQ (if kmQ r < kmQ best then r else best) :=
      ih _ _ (List.mem_cons_self _ _)
    have hbest : kmQ (if kmQ r < kmQ best then r else best) ≤ kmQ best := by
      by_cases hc : kmQ r < kmQ best
      · rw [if_pos hc]; exact le_of_lt hc
      · rw [if_neg hc]
    have hr : kmQ (if kmQ r < kmQ best then r else best) ≤ kmQ r := by
      by_cases hc : kmQ r < kmQ best
      · rw [if_pos hc]
      · rw [if_neg hc]; exact le_of_not_lt hc
    rcases List.mem_cons.mp hx with h1 | h1
    · subst h1; exact le_trans hhead hbest
    · rcases List.mem_cons.mp h1 with h2 | h2
      · subst h2; exact le_trans hhead hr
      · exact ih _ _ (List.mem_cons.mpr (Or.inr h2))

/-- On rows whose sort-key cells are floats, the fold of the pandas sort
succeeds and returns the first row attaining the minimal key. -/
theorem sortMinAux_eq (l : List FarmRecord) : ∀ best : FarmRecord,
    (∀ r ∈ best :: l, wfRec r = true) →
    sortMinAux best l = .ok (firstMinAux best l) := by
  induction l with
  | nil => intro best _; rfl
  | cons r t ih =>
    intro best hwf
    have hrkm := (wfRec_parts r (hwf r (by simp))).1
    have hbkm := (wfRec_parts best (hwf best (by simp))).1
    have hwf' : ∀ x ∈ (if kmQ r < kmQ best then r else best) :: t, wfRec x = true := by
      intro x hx
      rcases List.mem_cons.mp hx with h1 | h1
      · subst h1
        by_cases hc : kmQ r < kmQ best
        · rw [if_pos hc]; exact hwf r (by simp)
        · rw [if_neg hc]; exact hwf best (by simp)
      · exact hwf x (by simp [h1])
    simp only [sortMinAux, firstMinAux, hrkm, hbkm, pyLt, decide_eq_true_eq]
    exact ih _ hwf'

theorem transportTotal_eq (r : FarmRecord) (h : wfRec r = true) :
    transportTotal r = .ok (ratTrunc (tcQ r * kmQ r)) := by
  obtain ⟨hk, ht⟩ := wfRec_parts r h
  rw [transportTotal, hk, ht]
  rfl

theorem buildResult_eq (r : FarmRecord) (h : wfRec r = true) :
    buildResult r = .ok (mkOutPure r) := by
  rw [buildResult, transportTotal_eq r h]
  rfl

theorem candidates_sublist (db : List FarmRecord) (loc crop : String) :
    List.Sublist (candidates db loc crop) db := by
  simp only [candidates, exactMatches, substrMatches]
  split
  · exact List.filter_sublist db
  · exact List.filter_sublist db

theorem mem_candidates (db : List FarmRecord) (loc crop : String)
    (x : FarmRecord) (hx : x ∈ candidates db loc crop) : x ∈ db :=
  (candidates_sublist db loc crop).subset hx

/-- Main engine lemma: on a well-formed dataset with a non-empty candidate
list, `get_recommendations` succeeds with the projection of a
minimal-distance candidate (the model's tie determinization), and no error
is displayed. -/
theorem getRec_of_candidates (db : List FarmRecord) (loc crop : String)
    (hwf : wfDb db = true) (b : FarmRecord) (t : List FarmRecord)
    (hc : candidates db loc crop = b :: t) :
    get_recommendations db loc crop = (some (mkOutPure (firstMinAux b t)), false) := by
  have hwf' : ∀ r ∈ b :: t, wfRec r = true := by
    intro r hr
    have hdb : r ∈ db := mem_candidates db loc crop r (by rw [hc]; exact hr)
    rw [wfDb] at hwf
    exact List.all_eq_true.mp hwf r hdb
  have hsel : wfRec (firstMinAux b t) = true := hwf' _ (firstMinAux_mem t b)
  simp only [get_recommendations, getRecommendationsBody, hc,
    sortMinAux_eq t b hwf', buildResult_eq _ hsel]

/-! ### Concrete data used by witnesses and counterexamples -/

/-- A well-formed row with the given location, crop, storage name, distance
and per-km transport cost (remaining cells fixed representative values). -/
def sampleRec (loc crop store : String) (km tc : ℚ) : FarmRecord :=
  { farm_location := loc
    crop := crop
    cold_storage_location := store
    farm_to_storage_km := .float km
    farm_to_storage_hrs := .float 1
    market_location := "Mile 12 Market"
    storage_to_market_km := .float 8
    storage_to_market_hrs := .float (1 / 2)
    optimal_temp := some 13
    spoilage_rate := some 5
    storage_cost := .float 350
    transport_cost := .float tc }

/-! ### Claims -/

/-- C1: for every query for which at least one record matches both fields
exactly after trimming and lower-casing — on a dataset whose numeric cells
hold floats, as the spec's data model (§3) requires — `get_recommendations`
returns a match `(some res, false)` whose `storage_km` equals the minimum
`farm to cold storage(km)` value among the exact-matching records. -/
theorem C1_exact_match_min_storage_km (db : List FarmRecord)
    (loc crop : String) (hwf : wfDb db = true)
    (hne : exactMatches db loc crop ≠ []) :
    ∃ res m, get_recommendations db loc crop = (some res, false) ∧
      res.storage_km = PyVal.float m ∧
      (∀ r ∈ exactMatches db loc crop, m ≤ kmQ r) ∧
      (∃ r ∈ exactMatches db loc crop, kmQ r = m) := by
  cases hex : exactMatches db loc crop with
  | nil => exact absurd hex hne
  | cons b t =>
    have hc : candidates db loc crop = b :: t := by
      simp [candidates, hex]
    have hmain := getRec_of_candidates db loc crop hwf b t hc
    have hmem : firstMinAux b t ∈ db :=
      mem_candidates db loc crop _ (by rw [hc]; exact firstMinAux_mem t b)
    have hwfr : wfRec (firstMinAux b t) = true := by
      rw [wfDb] at hwf
      exact List.all_eq_true.mp hwf _ hmem
    refine ⟨mkOutPure (firstMinAux b t), kmQ (firstMinAux b t), hmain, ?_, ?_, ?_⟩
    · exact (wfRec_parts _ hwfr).1
    · intro r hr
      exact firstMinAux_le t b r hr
    · exact ⟨firstMinAux b t, firstMinAux_mem t b, rfl⟩

def dbC1 : List FarmRecord :=
  [sampleRec "Kano" "Tomato" "ColdHub Kano A" 10 3791,
   sampleRec "Kano" "Tomato" "ColdHub Kano B" 5 3791,
   sampleRec "Oyo" "Yam" "ColdHub Oyo" 3 3791]

/-- Witness for C1 at a concrete dataset and query: two exact matches with
distances 10 and 5, minimum 5. -/
theorem C1_exact_match_min_storage_km_wit :
    wfDb dbC1 = true ∧ exactMatches dbC1 " KANO " "tomato" ≠ [] ∧
    (∃ res m, get_recommendations dbC1 " KANO " "tomato" = (some res, false) ∧
      res.storage_km = PyVal.float m ∧
      (∀ r ∈ exactMatches dbC1 " KANO " "tomato", m ≤ kmQ r) ∧
      (∃ r ∈ exactMatches dbC1 " KANO " "tomato", kmQ r = m)) :=
  ⟨by decide, by decide,
    C1_exact_match_min_storage_km dbC1 " KANO " "tomato" (by decide) (by decide)⟩

def recC3 : FarmRecord := sampleRec "Ikorodu" "Pepper" "ColdHub Ikorodu" (25 / 2) 3791

def dbC3 : List FarmRecord := [recC3]

/-- C3 counterexample: the claim says the total transport cost equals
`round(transport_cost_per_ton_km * farm_to_storage_km)` and in particular
`47388` for `3791 × 12.5`.  The code computes `int(...)` (line 86), which
truncates toward zero: on a record with exactly those values the engine
reports `₦47,387`, while `round(3791 * 12.5) = 47388`. -/
theorem C3_total_not_round_cex :
    get_recommendations dbC3 "Ikorodu" "Pepper" = (some (mkOutPure recC3), false) ∧
    (mkOutPure recC3).transport_cost = "₦47,387" ∧
    transportTotal recC3 = Except.ok 47387 ∧
    ratTrunc ((3791 : ℚ) * (25 / 2)) = 47387 ∧
    pythonRound ((3791 : ℚ) * (25 / 2)) = 47388 ∧
    (mkOutPure recC3).transport_cost ≠
      "₦" ++ commaFmt (pythonRound ((3791 : ℚ) * (25 / 2))) :=
  ⟨by decide, by decide, by rfl, by decide, by decide, by decide⟩

/-- C3 (amended): for every matched query on a well-formed dataset, the
total transport cost equals `int(transport_cost_per_ton_km *
farm_to_storage_km)` — the product truncated toward zero — so for
`3791 × 12.5` the total is `47387`, not `round(...) = 47388`. -/
theorem C3_total_is_truncated_product (db : List FarmRecord)
    (loc crop : String) (hwf : wfDb db = true)
    (hne : candidates db loc crop ≠ []) :
    ∃ sel res, sel ∈ candidates db loc crop ∧
      get_recommendations db loc crop = (some res, false) ∧
      transportTotal sel = .ok (ratTrunc (tcQ sel * kmQ sel)) ∧
      res.transport_cost = "₦" ++ commaFmt (ratTrunc (tcQ sel * kmQ sel)) := by
  cases hc : candidates db loc crop with
  | nil => exact absurd hc hne
  | cons b t =>
    have hmain := getRec_of_candidates db loc crop hwf b t hc
    have hmem : firstMinAux b t ∈ db :=
      mem_candidates db loc crop _ (by rw [hc]; exact firstMinAux_mem t b)
    have hwfr : wfRec (firstMinAux b t) = true := by
      rw [wfDb] at hwf
      exact List.all_eq_true.mp hwf _ hmem
    exact ⟨firstMinAux b t, mkOutPure (firstMinAux b t), firstMinAux_mem t b,
      hmain, transportTotal_eq _ hwfr, rfl⟩

/-- Witness for the amended C3 at the `3791 × 12.5` record itself. -/
theorem C3_total_is_truncated_product_wit :
    wfDb dbC3 = true ∧ candidates dbC3 "Ikorodu" "Pepper" ≠ [] ∧
    (∃ sel res, sel ∈ candidates dbC3 "Ikorodu" "Pepper" ∧
      get_recommendations dbC3 "Ikorodu" "Pepper" = (some res, false) ∧
      transportTotal sel = .ok (ratTrunc (tcQ sel * kmQ sel)) ∧
      res.transport_cost = "₦" ++ commaFmt (ratTrunc (tcQ sel * kmQ sel))) :=
  ⟨by decide, by decide,
    C3_total_is_truncated_product dbC3 "Ikorodu" "Pepper" (by decide) (by decide)⟩

/-- C4: when the exact phase yields zero records but some record's stripped,
lower-cased location and crop contain the stripped, lower-cased query strings
as substrings, the candidate set is exactly the fallback (substring) set —
the fallback is consulted only because the exact phase is empty — and the
returned match is drawn from those substring candidates. -/
theorem C4_fallback_phase (db : List FarmRecord) (loc crop : String)
    (hwf : wfDb db = true) (hex : exactMatches db loc crop = [])
    (hsub : substrMatches db loc crop ≠ []) :
    candidates db loc crop = substrMatches db loc crop ∧
    ∃ sel, sel ∈ substrMatches db loc crop ∧
      get_recommendations db loc crop = (some (mkOutPure sel), false) := by
  have hcand : candidates db loc crop = substrMatches db loc crop := by
    simp [candidates, hex]
  refine ⟨hcand, ?_⟩
  cases hs : substrMatches db loc crop with
  | nil => exact absurd hs hsub
  | cons b t =>
    have hc : candidates db loc crop = b :: t := by rw [hcand, hs]
    exact ⟨firstMinAux b t, firstMinAux_mem t b,
      getRec_of_candidates db loc crop hwf b t hc⟩

def dbC4 : List FarmRecord :=
  [sampleRec "Kano State" "Tomatoes" "ColdHub Kano" 12 3791]

/-- Witness for C4: query `("Kano", "Tomato")` has no exact match against
the stored `("Kano State", "Tomatoes")` row but matches it by substring. -/
theorem C4_fallback_phase_wit :
    wfDb dbC4 = true ∧ exactMatches dbC4 "Kano" "Tomato" = [] ∧
    substrMatches dbC4 "Kano" "Tomato" ≠ [] ∧
    (candidates dbC4 "Kano" "Tomato" = substrMatches dbC4 "Kano" "Tomato" ∧
      ∃ sel, sel ∈ substrMatches dbC4 "Kano" "Tomato" ∧
        get_recommendations dbC4 "Kano" "Tomato"
          = (some (mkOutPure sel), false)) :=
  ⟨by decide, by decide, by decide,
    C4_fallback_phase dbC4 "Kano" "Tomato" (by decide) (by decide) (by decide)⟩

/-- C5: when no record's stripped, lower-cased location and crop both contain
the corresponding stripped, lower-cased query strings as substrings, both
phases are empty and `get_recommendations` returns `None` without entering
the exception handler (`(none, false)`): the no-match outcome, not a crash. -/
theorem C5_no_overlap_returns_none (db : List FarmRecord) (loc crop : String)
    (h : ∀ r ∈ db,
      (containsB (pyLower (pyStrip r.farm_location)) (pyLower (pyStrip loc)) &&
       containsB (pyLower (pyStrip r.crop)) (pyLower (pyStrip crop))) = false) :
    get_recommendations db loc crop = (none, false) := by
  have hsub : substrMatches db loc crop = [] := by
    rw [substrMatches, List.filter_eq_nil_iff]
    intro a ha
    simp [h a ha]
  have hex : exactMatches db loc crop = [] := by
    rw [exactMatches, List.filter_eq_nil_iff]
    intro a ha hcon
    rw [Bool.and_eq_true] at hcon
    have h1 : pyLower (pyStrip a.farm_location) = pyLower (pyStrip loc) := by
      simpa using hcon.1
    have h2 : pyLower (pyStrip a.crop) = pyLower (pyStrip crop) := by
      simpa using hcon.2
    have hc1 : containsB (pyLower (pyStrip a.farm_location))
        (pyLower (pyStrip loc)) = true := by
      rw [h1]; exact containsB_refl _
    have hc2 : containsB (pyLower (pyStrip a.crop))
        (pyLower (pyStrip crop)) = true := by
      rw [h2]; exact containsB_refl _
    have hfalse := h a ha
    rw [hc1, hc2] at hfalse
    exact absurd hfalse (by simp)
  have hcand : candidates db loc crop = [] := by
    simp [candidates, hex, hsub]
  simp [get_recommendations, getRecommendationsBody, hcand]

def dbC5 : List FarmRecord :=
  [sampleRec "Oyo" "Yam" "ColdHub Oyo" 3 3791]

/-- Witness for C5: the query `("Zaria", "Okra")` overlaps no record. -/
theorem C5_no_overlap_returns_none_wit :
    (∀ r ∈ dbC5,
      (containsB (pyLower (pyStrip r.farm_location)) (pyLower (pyStrip "Zaria")) &&
       containsB (pyLower (pyStrip r.crop)) (pyLower (pyStrip "Okra"))) = false) ∧
    get_recommendations dbC5 "Zaria" "Okra" = (none, false) :=
  ⟨by decide, C5_no_overlap_returns_none dbC5 "Zaria" "Okra" (by decide)⟩

def recC6 : FarmRecord :=
  { sampleRec "Epe" "Okra" "ColdHub Epe" 0 3791 with
    farm_to_storage_km := .str "12.5km" }

/-- C6 counterexample: the claim says an exception during filtering/selection
yields an outcome the caller can distinguish from no-match.  On a matching
record whose distance cell is the malformed string `"12.5km"`, the engine
body raises `TypeError`; the handler (lines 89–91) catches it and returns
`None` — the very value the caller receives for a no-match query — so the
caller-visible outcome of the failure equals the no-match outcome. -/
theorem C6_failure_indistinguishable_cex :
    getRecommendationsBody [recC6] "Epe" "Okra"
      = Except.error "TypeError: unsupported operand type(s) for *" ∧
    get_recommendations [recC6] "Epe" "Okra" = (none, true) ∧
    get_recommendations ([] : List FarmRecord) "Epe" "Okra" = (none, false) ∧
    (get_recommendations [recC6] "Epe" "Okra").1
      = (get_recommendations ([] : List FarmRecord) "Epe" "Okra").1 :=
  ⟨by rfl, by decide, by decide, by decide⟩

/-- C6 (amended): any exception escaping the engine body is caught and
converted to the `None` return value — identical to the no-match value, so
the caller cannot distinguish the two from the result; the only trace of the
failure is the `st.error` banner displayed inside `get_recommendations`
(the Boolean flag of the model). -/
theorem C6_exception_caught_returns_none (db : List FarmRecord)
    (loc crop e : String)
    (h : getRecommendationsBody db loc crop = .error e) :
    get_recommendations db loc crop = (none, true) := by
  simp [get_recommendations, h]

/-- Witness for the amended C6 at the malformed-cell record. -/
theorem C6_exception_caught_returns_none_wit :
    getRecommendationsBody [recC6] "Epe" "Okra"
      = Except.error "TypeError: unsupported operand type(s) for *" ∧
    get_recommendations [recC6] "Epe" "Okra" = (none, true) :=
  ⟨by rfl,
    C6_exception_caught_returns_none [recC6] "Epe" "Okra"
      "TypeError: unsupported operand type(s) for *" (by rfl)⟩

/-- C7: for every input table missing at least one required column, startup
halts in the stopped phase carrying exactly the missing required columns
(each listed column is required and absent, and every such column is
listed), the cleaned dataset is never constructed, and no query is ever
served afterward. -/
theorem C7_missing_columns_stop (t : RawTable)
    (hmiss : missingCols t.columns ≠ []) :
    appInit t = AppPhase.stopped (missingCols t.columns) ∧
    (∀ c, c ∈ missingCols t.columns ↔ (c ∈ required_cols ∧ c ∉ t.columns)) ∧
    (∀ loc crop, serveQuery (appInit t) loc crop = none) := by
  have hv : validate_data t.columns = false := by
    rw [validate_data]
    cases h : missingCols t.columns with
    | nil => exact absurd h hmiss
    | cons a l => rfl
  have h1 : appInit t = AppPhase.stopped (missingCols t.columns) := by
    simp [appInit, hv]
  refine ⟨h1, ?_, ?_⟩
  · intro c
    simp [missingCols, List.mem_filter]
  · intro loc crop
    rw [h1]
    rfl

def tblC7 : RawTable :=
  { columns := ["Farm Location", "Crop", "cold storage location",
      "spoilage rate at optimal temp(%)per week"]
    rows := [] }

/-- Witness for C7: a table lacking exactly the optimal-storage-temperature
column stops with that single column reported and serves no query. -/
theorem C7_missing_columns_stop_wit :
    missingCols tblC7.columns ≠ [] ∧
    missingCols tblC7.columns = ["optimal storage temp(degree c)"] ∧
    (appInit tblC7 = AppPhase.stopped (missingCols tblC7.columns) ∧
      (∀ c, c ∈ missingCols tblC7.columns ↔
        (c ∈ required_cols ∧ c ∉ tblC7.columns)) ∧
      (∀ loc crop, serveQuery (appInit tblC7) loc crop = none)) :=
  ⟨by decide, by decide, C7_missing_columns_stop tblC7 (by decide)⟩

/-- C8: the crop-guidelines summary reports the explicit unavailable marker
(the `"No data available"` warning of line 232, carrying no numbers — so
never `0.0` and never a NaN rendered as a number) precisely when the
filtered subset — case-insensitive crop equality, null temperature or
spoilage rows dropped — is empty. -/
theorem C8_empty_crop_summary_unavailable (db : List FarmRecord)
    (crop_name : String) :
    crop_summary db crop_name = CropGuide.unavailable ↔
      cropFiltered db crop_name = [] := by
  cases h : cropFiltered db crop_name with
  | nil => simp [crop_summary, h]
  | cons b t => simp [crop_summary, h]

/-- C9: a (farm location, crop) pair with zero underlying records yields an
explicitly absent pivot cell (`none`, pandas NaN), never a fabricated zero
or other number. -/
theorem C9_pivot_cell_absent (db : List FarmRecord) (loc crop : String)
    (h : db.filter (fun r => r.farm_location == loc && r.crop == crop) = []) :
    pivotCell db loc crop = none := by
  simp [pivotCell, h]

def dbC9 : List FarmRecord :=
  [sampleRec "Kano" "Tomato" "ColdHub Kano A" 10 3791]

/-- Witness for C9: the pair `("Kano", "Yam")` has no records, so its pivot
cell is absent. -/
theorem C9_pivot_cell_absent_wit :
    dbC9.filter (fun r => r.farm_location == "Kano" && r.crop == "Yam") = [] ∧
    pivotCell dbC9 "Kano" "Yam" = none :=
  ⟨by decide, C9_pivot_cell_absent dbC9 "Kano" "Yam" (by decide)⟩

/-- C10: for every matched query the result's cost fields are the formatted
strings of lines 85–86 — `storage_cost` is the raw cost cell rendered
between the `₦` prefix and the `/crate/day` suffix, and `transport_cost`
is the `₦` prefix followed by the truncated integer total grouped with
thousands separators — not raw numeric values. -/
theorem C10_cost_fields_formatted (db : List FarmRecord) (loc crop : String)
    (hwf : wfDb db = true) (hne : candidates db loc crop ≠ []) :
    ∃ sel res, sel ∈ candidates db loc crop ∧
      get_recommendations db loc crop = (some res, false) ∧
      res.storage_cost = "₦" ++ pyValStr sel.storage_cost ++ "/crate/day" ∧
      res.transport_cost = "₦" ++ commaFmt (ratTrunc (tcQ sel * kmQ sel)) := by
  cases hc : candidates db loc crop with
  | nil => exact absurd hc hne
  | cons b t =>
    have hmain := getRec_of_candidates db loc crop hwf b t hc
    exact ⟨firstMinAux b t, mkOutPure (firstMinAux b t), firstMinAux_mem t b,
      hmain, rfl, rfl⟩

def dbC10 : List FarmRecord :=
  [sampleRec "Abuja" "Okra" "ColdHub Abuja" 4 3791]

/-- Witness for C10 at a concrete dataset and query. -/
theorem C10_cost_fields_formatted_wit :
    wfDb dbC10 = true ∧ candidates dbC10 "Abuja" "Okra" ≠ [] ∧
    (∃ sel res, sel ∈ candidates dbC10 "Abuja" "Okra" ∧
      get_recommendations dbC10 "Abuja" "Okra" = (some res, false) ∧
      res.storage_cost = "₦" ++ pyValStr sel.storage_cost ++ "/crate/day" ∧
      res.transport_cost = "₦" ++ commaFmt (ratTrunc (tcQ sel * kmQ sel))) :=
  ⟨by decide, by decide,
    C10_cost_fields_formatted dbC10 "Abuja" "Okra" (by decide) (by decide)⟩

end AgriSmart
